import Mathlib

/-!
Verification development for the "Picnic Day Scrapers" repository
(two Python programs: a recursive link-tree crawler, file
"[STABLE]WBSLSCv4.py", and a concurrent broken-link scanner, file
"[STABLE]brokenScraperV2.96.5.py").

The Python sources are shallowly embedded below.  External capabilities
(HTTP transport, the filesystem, and BeautifulSoup's HTML parsing) are
passed in as explicit oracle parameters; the standard-library helpers the
sources call (`urllib.parse.urlsplit`, `urljoin`, `html.unescape`,
`re` scans for the three concrete patterns used, `str.strip`, `int`) are
implemented faithfully as executable Lean functions.  Stateful code
(the shared visited set) becomes explicit state passing, and the
observable effects that the claims talk about (page fetches, HEAD
checks) are returned as explicit traces.
-/

/-! ## Basic character and string helpers -/

/-- Conversion of a list of characters back to a string. -/
def charsToStr (cs : List Char) : String := String.mk cs

/-- The single-quote character, written via its code point. -/
def squote : Char := Char.ofNat 39

/-- ASCII whitespace as Python's `str.strip` / `\s` treats it
(space, tab, newline, carriage return, form feed, vertical tab;
non-ASCII whitespace is not modelled). -/
def pyIsSpace (c : Char) : Bool :=
  c = ' ' || c = '\t' || c = '\n' || c = '\r' || c = '\x0c' || c = '\x0b'

/-- Python `str.strip()` (whitespace from both ends). -/
def pyStrip (s : String) : String :=
  charsToStr (((s.data.dropWhile pyIsSpace).reverse.dropWhile pyIsSpace).reverse)

/-- Python `str.strip('\x27"')`: quotes removed from both ends. -/
def stripQuotes (s : String) : String :=
  let isQ : Char → Bool := fun c => c = '"' || c = squote
  charsToStr (((s.data.dropWhile isQ).reverse.dropWhile isQ).reverse)

/-- Split a character list at the first occurrence of `c`;
`none` when `c` does not occur. -/
def splitOnFirst (c : Char) : List Char → Option (List Char × List Char)
  | [] => none
  | x :: xs =>
    if x = c then some ([], xs)
    else
      match splitOnFirst c xs with
      | some (a, b) => some (x :: a, b)
      | none => none

/-- Prefix test on character lists. -/
def startsWithChars : List Char → List Char → Bool
  | [], _ => true
  | _ :: _, [] => false
  | p :: ps, c :: cs => p = c && startsWithChars ps cs

/-- Python `s.startswith(p)` (structural implementation). -/
def strStartsWith (s p : String) : Bool := startsWithChars p.data s.data

/-- Split a character list on a separator character, Python
`str.split(sep)` style: the empty list yields one empty field. -/
def splitOnChar (c : Char) : List Char → List (List Char)
  | [] => [[]]
  | x :: xs =>
    if x = c then [] :: splitOnChar c xs
    else
      match splitOnChar c xs with
      | h :: t => (x :: h) :: t
      | [] => [[x]]

/-- Python `path.split('/')`. -/
def strSplitSlash (s : String) : List String :=
  (splitOnChar '/' s.data).map charsToStr

/-- Python `'/'.join(parts)`. -/
def joinWithSlash : List String → String
  | [] => ""
  | [x] => x
  | x :: y :: xs => x ++ "/" ++ joinWithSlash (y :: xs)

/-- Python `s.lower()` (ASCII; structural implementation). -/
def strToLower (s : String) : String := charsToStr (s.data.map Char.toLower)

/-- Lexicographic comparison of character lists by code point. -/
def charListLe : List Char → List Char → Bool
  | [], _ => true
  | _ :: _, [] => false
  | a :: as, b :: bs =>
    if a < b then true else if b < a then false else charListLe as bs

/-- Python string comparison `a <= b` (code-point lexicographic). -/
def strLe (a b : String) : Bool := charListLe a.data b.data

/-- Decimal digit run to a natural number. -/
def decToNat (ds : List Char) : Nat :=
  ds.foldl (fun a c => a * 10 + (c.toNat - '0'.toNat)) 0

/-- Hexadecimal digit test. -/
def isHexDigitChar (c : Char) : Bool :=
  c.isDigit || ('a' ≤ c && c ≤ 'f') || ('A' ≤ c && c ≤ 'F')

/-- Value of one hexadecimal digit. -/
def hexDigitVal (c : Char) : Nat :=
  if c.isDigit then c.toNat - '0'.toNat
  else if 'a' ≤ c && c ≤ 'f' then c.toNat - 'a'.toNat + 10
  else if 'A' ≤ c && c ≤ 'F' then c.toNat - 'A'.toNat + 10
  else 0

/-- Hexadecimal digit run to a natural number. -/
def hexToNat (ds : List Char) : Nat :=
  ds.foldl (fun a c => a * 16 + hexDigitVal c) 0

/-! ## `urllib.parse`: urlsplit / urlparse / urljoin

Modelled from CPython's `Lib/urllib/parse.py`, restricted to `str`
inputs and `allow_fragments=True` (the only way the sources call it);
the IPv6-bracket validation (which raises) is not modelled. -/

/-- Characters CPython removes from anywhere in a URL before parsing. -/
def removeUnsafe (cs : List Char) : List Char :=
  cs.filter (fun c => c ≠ '\t' && c ≠ '\r' && c ≠ '\n')

/-- CPython strips leading (only) C0-control-or-space characters. -/
def lstripC0 (cs : List Char) : List Char :=
  cs.dropWhile (fun c => c ≤ ' ')

/-- Characters allowed in a URL scheme after the first (alphabetic) one. -/
def isSchemeChar (c : Char) : Bool :=
  c.isAlpha || c.isDigit || c = '+' || c = '-' || c = '.'

/-- Result of `urlsplit`: the five components. -/
structure UrlSplit where
  scheme : String
  netloc : String
  path : String
  query : String
  fragment : String
deriving DecidableEq

/-- Core of `urlsplit` on an already-cleaned character list. -/
def pyUrlsplitCore (cs : List Char) (defaultScheme : String) : UrlSplit :=
  let (scheme, rest) :=
    match splitOnFirst ':' cs with
    | some (before, after) =>
      if (match before with | b :: _ => b.isAlpha | [] => false)
          && before.all isSchemeChar then
        (charsToStr (before.map Char.toLower), after)
      else (defaultScheme, cs)
    | none => (defaultScheme, cs)
  let (netloc, rest2) :=
    match rest with
    | '/' :: '/' :: r =>
      let nl := r.takeWhile (fun c => c ≠ '/' && c ≠ '?' && c ≠ '#')
      (charsToStr nl, r.drop nl.length)
    | _ => ("", rest)
  let (rest3, fragment) :=
    match splitOnFirst '#' rest2 with
    | some (a, b) => (a, charsToStr b)
    | none => (rest2, "")
  let (path, query) :=
    match splitOnFirst '?' rest3 with
    | some (a, b) => (charsToStr a, charsToStr b)
    | none => (charsToStr rest3, "")
  ⟨scheme, netloc, path, query, fragment⟩

/-- Python `urllib.parse.urlsplit(url, scheme=defaultScheme)`. -/
def pyUrlsplit (url : String) (defaultScheme : String) : UrlSplit :=
  pyUrlsplitCore (removeUnsafe (lstripC0 url.data)) defaultScheme

/-- Python `_splitparams`: split `;params` off the last path segment. -/
def splitParamsChars (cs : List Char) : List Char × List Char :=
  if cs.contains '/' then
    let lastSeg := (cs.reverse.takeWhile (fun c => c ≠ '/')).reverse
    let pre := cs.take (cs.length - lastSeg.length)
    match splitOnFirst ';' lastSeg with
    | some (a, b) => (pre ++ a, b)
    | none => (cs, [])
  else
    match splitOnFirst ';' cs with
    | some (a, b) => (a, b)
    | none => (cs, [])

/-- Result of `urlparse`: the six components. -/
structure UrlParse6 where
  scheme : String
  netloc : String
  path : String
  params : String
  query : String
  fragment : String
deriving DecidableEq

/-- Schemes that allow relative resolution (CPython `uses_relative`). -/
def uses_relative : List String :=
  ["", "ftp", "http", "gopher", "nntp", "imap", "wais", "file", "https",
   "shttp", "mms", "prospero", "rtsp", "rtsps", "rtspu", "sftp", "svn",
   "svn+ssh", "ws", "wss"]

/-- Schemes that use a network location (CPython `uses_netloc`). -/
def uses_netloc : List String :=
  ["", "ftp", "http", "gopher", "nntp", "telnet", "imap", "wais", "file",
   "mms", "https", "shttp", "snews", "prospero", "rtsp", "rtsps", "rtspu",
   "rsync", "svn", "svn+ssh", "sftp", "nfs", "git", "git+ssh", "ws", "wss"]

/-- Schemes that use `;params` in the path (CPython `uses_params`). -/
def uses_params : List String :=
  ["", "ftp", "hdl", "prospero", "http", "imap", "https", "shttp", "rtsp",
   "rtsps", "rtspu", "sip", "sips", "mms", "sftp", "tel"]

/-- Python `urllib.parse.urlparse(url, scheme=defaultScheme)`. -/
def pyUrlparse (url : String) (defaultScheme : String) : UrlParse6 :=
  let s := pyUrlsplit url defaultScheme
  if s.scheme ∈ uses_params ∧ s.path.data.contains ';' then
    let (p, par) := splitParamsChars s.path.data
    ⟨s.scheme, s.netloc, charsToStr p, charsToStr par, s.query, s.fragment⟩
  else
    ⟨s.scheme, s.netloc, s.path, "", s.query, s.fragment⟩

/-- Python `urllib.parse.urlunsplit`. -/
def pyUrlunsplit (scheme netloc path query fragment : String) : String :=
  let url := path
  let url :=
    if netloc ≠ "" ∨ (scheme ≠ "" ∧ scheme ∈ uses_netloc ∧ ¬ strStartsWith url "//") then
      let url := if url ≠ "" ∧ ¬ strStartsWith url "/" then "/" ++ url else url
      "//" ++ netloc ++ url
    else url
  let url := if scheme ≠ "" then scheme ++ ":" ++ url else url
  let url := if query ≠ "" then url ++ "?" ++ query else url
  if fragment ≠ "" then url ++ "#" ++ fragment else url

/-- Python `urllib.parse.urlunparse`. -/
def pyUrlunparse (scheme netloc path params query fragment : String) : String :=
  let path := if params ≠ "" then path ++ ";" ++ params else path
  pyUrlunsplit scheme netloc path query fragment

/-- Keep the last element, filtering empty strings before it
(CPython's `segments[1:-1] = filter(None, segments[1:-1])`, applied
to everything after the head). -/
def keepLastFilterEmpty : List String → List String
  | [] => []
  | [x] => [x]
  | x :: y :: xs =>
    if x = "" then keepLastFilterEmpty (y :: xs)
    else x :: keepLastFilterEmpty (y :: xs)

/-- First and last segments kept, empty middle segments dropped. -/
def filterMiddle : List String → List String
  | [] => []
  | x :: xs => x :: keepLastFilterEmpty xs

/-- Python `urllib.parse.urljoin(base, url)`. -/
def pyUrljoin (base url : String) : String :=
  if base = "" then url
  else if url = "" then base
  else
    let b := pyUrlparse base ""
    let u := pyUrlparse url b.scheme
    if u.scheme ≠ b.scheme ∨ u.scheme ∉ uses_relative then url
    else if u.scheme ∈ uses_netloc ∧ u.netloc ≠ "" then
      pyUrlunparse u.scheme u.netloc u.path u.params u.query u.fragment
    else
      let netloc := if u.scheme ∈ uses_netloc then b.netloc else u.netloc
      if u.path = "" ∧ u.params = "" then
        let query := if u.query = "" then b.query else u.query
        pyUrlunparse u.scheme netloc b.path b.params query u.fragment
      else
        let baseParts := strSplitSlash b.path
        let baseParts :=
          if baseParts.getLast? ≠ some "" then baseParts.dropLast else baseParts
        let segments :=
          if strStartsWith u.path "/" then strSplitSlash u.path
          else filterMiddle (baseParts ++ strSplitSlash u.path)
        let resolved := segments.foldl
          (fun acc seg =>
            if seg = ".." then acc.dropLast
            else if seg = "." then acc
            else acc ++ [seg]) []
        let resolved :=
          if segments.getLast? = some "." ∨ segments.getLast? = some ".." then
            resolved ++ [""]
          else resolved
        let path := joinWithSlash resolved
        let path := if path = "" then "/" else path
        pyUrlunparse u.scheme netloc path u.params u.query u.fragment

/-! ## The URL classifier of both sources -/

/-- `is_valid(url)` from both source files: the URL parses to a
non-empty scheme and a non-empty network location. -/
def is_valid (url : String) : Bool :=
  let parsed := pyUrlparse url ""
  (parsed.scheme != "") && (parsed.netloc != "")

/-- `urlparse(u).netloc`, as both sources use it for domain comparison. -/
def urlNetloc (u : String) : String := (pyUrlparse u "").netloc

/-! ## `html.unescape`

Modelled from Python's `html.unescape` restricted to the character
references relevant here: numeric references (`&#...` decimal and
`&#x...` hexadecimal, with or without the closing semicolon, invalid
code points mapping to U+FFFD) and the five basic named entities with
semicolons.  The full HTML5 named-entity table and its
missing-semicolon lookup are not modelled. -/

/-- The basic named entities recognised by the model. -/
def namedEntities : List (String × Char) :=
  [("amp", '&'), ("lt", '<'), ("gt", '>'), ("quot", '"'), ("apos", squote)]

/-- Decode a code point, mapping invalid scalar values to U+FFFD. -/
def codeChar (n : Nat) : Char :=
  if n.isValidChar then Char.ofNat n else Char.ofNat 0xFFFD

/-- Try to read one character reference at the position just after a
`&`; returns the decoded character and how many characters of the
input the reference consumed. -/
def matchCharref (cs : List Char) : Option (Char × Nat) :=
  match cs with
  | '#' :: rest =>
    match rest with
    | x :: r2 =>
      if x = 'x' ∨ x = 'X' then
        let ds := r2.takeWhile isHexDigitChar
        if ds.isEmpty then none
        else
          match r2.drop ds.length with
          | ';' :: _ => some (codeChar (hexToNat ds), 2 + ds.length + 1)
          | _ => some (codeChar (hexToNat ds), 2 + ds.length)
      else
        let ds := rest.takeWhile Char.isDigit
        if ds.isEmpty then none
        else
          match rest.drop ds.length with
          | ';' :: _ => some (codeChar (decToNat ds), 1 + ds.length + 1)
          | _ => some (codeChar (decToNat ds), 1 + ds.length)
    | [] => none
  | _ =>
    let nm := cs.takeWhile Char.isAlpha
    match (namedEntities.find? (fun p => p.1 == charsToStr nm)), cs.drop nm.length with
    | some p, ';' :: _ => some (p.2, nm.length + 1)
    | _, _ => none

/-- Scanner for `html.unescape`.  The fuel argument only bounds the
scan; it never expires because every step consumes at least one
character and the initial fuel is the input length. -/
def unescapeGo : Nat → List Char → List Char
  | 0, rest => rest
  | _ + 1, [] => []
  | f + 1, '&' :: rest =>
    (match matchCharref rest with
     | some (c, n) => c :: unescapeGo f (rest.drop n)
     | none => '&' :: unescapeGo f rest)
  | f + 1, c :: rest => c :: unescapeGo f rest

/-- Python `html.unescape` (restricted model, see above). -/
def html_unescape (s : String) : String :=
  charsToStr (unescapeGo s.data.length s.data)

/-! ## The three regular-expression scans used by the sources

Each Python pattern is implemented directly as a left-to-right,
non-overlapping scanner, exactly as `re.findall` / `re.search`
behave on these patterns (no backtracking is possible for them). -/

/-- A character allowed inside the `https?://[^\s"\x27<>]+` tail. -/
def isUrlTailChar (c : Char) : Bool :=
  !(pyIsSpace c) && c ≠ '"' && c ≠ squote && c ≠ '<' && c ≠ '>'

/-- Length of a match of `https?://[^\s"\x27<>]+` anchored at this
position, when there is one. -/
def httpMatchLen (cs : List Char) : Option Nat :=
  let p : Option Nat :=
    if startsWithChars ("https://".data) cs then some 8
    else if startsWithChars ("http://".data) cs then some 7
    else none
  match p with
  | none => none
  | some n =>
    let run := ((cs.drop n).takeWhile isUrlTailChar).length
    if run = 0 then none else some (n + run)

/-- Scanner for `re.findall(r'https?://[^\s"\x27<>]+', text)`: fuelled,
and the fuel never expires because every step consumes at least one
character. -/
def httpFindAllGo : Nat → List Char → List String
  | 0, _ => []
  | _ + 1, [] => []
  | f + 1, c :: rest =>
    (match httpMatchLen (c :: rest) with
     | some n => charsToStr ((c :: rest).take n) :: httpFindAllGo f ((c :: rest).drop n)
     | none => httpFindAllGo f rest)

/-- `re.findall(r'https?://[^\s"\x27<>]+', text)`. -/
def httpFindAll (s : String) : List String :=
  httpFindAllGo s.data.length s.data

/-- A match of `url\(([^)]+)\)` anchored at this position: the group
and the total number of characters the match consumed. -/
def cssMatch (cs : List Char) : Option (String × Nat) :=
  if startsWithChars ("url(".data) cs then
    let body := (cs.drop 4).takeWhile (fun c => c ≠ ')')
    if body.isEmpty then none
    else
      match (cs.drop 4).drop body.length with
      | ')' :: _ => some (charsToStr body, 4 + body.length + 1)
      | _ => none
  else none

/-- Scanner for `re.findall(r'url\(([^)]+)\)', text)` (fuelled, fuel
never expires). -/
def cssFindAllGo : Nat → List Char → List String
  | 0, _ => []
  | _ + 1, [] => []
  | f + 1, c :: rest =>
    (match cssMatch (c :: rest) with
     | some (g, n) => g :: cssFindAllGo f ((c :: rest).drop n)
     | none => cssFindAllGo f rest)

/-- `re.findall(r'url\(([^)]+)\)', text)`, collecting the groups. -/
def cssFindAll (s : String) : List String :=
  cssFindAllGo s.data.length s.data

/-- A match of `url=([\S]+)` (case-insensitive) anchored at this
position: the group when the whole pattern matches here. -/
def matchUrlEq (cs : List Char) : Option (List Char) :=
  match cs with
  | u :: r :: l :: e :: rest =>
    if u.toLower = 'u' ∧ r.toLower = 'r' ∧ l.toLower = 'l' ∧ e = '=' then
      let run := rest.takeWhile (fun c => !(pyIsSpace c))
      if run.isEmpty then none else some run
    else none
  | _ => none

/-- Scanner for `re.search(r'url=([\S]+)', text, re.IGNORECASE)`:
the group of the earliest match, if any. -/
def searchUrlEqChars : List Char → Option String
  | [] => none
  | c :: rest =>
    match matchUrlEq (c :: rest) with
    | some g => some (charsToStr g)
    | none => searchUrlEqChars rest

/-- `re.search(r'url=([\S]+)', text, re.IGNORECASE)`, group 1. -/
def searchUrlEq (s : String) : Option String :=
  searchUrlEqChars s.data

/-! ## The HTML DOM capability and the two link extractors

BeautifulSoup's parsing is an external capability (spec §1): a parsed
document is a list of elements in document order, each with a tag
name, an attribute map and an optional single text child (what
BeautifulSoup calls `.string`).  `get_all_links` receives both the
parsed form and the raw text, exactly as the Python functions work on
`soup` and `html_content`. -/

/-- One parsed HTML element. -/
structure Element where
  tag : String
  attrs : List (String × String)
  textContent : Option String
deriving DecidableEq

/-- `tag.get(attr)`: first binding of the attribute, if present. -/
def lookupAttr (t : Element) (a : String) : Option String :=
  (t.attrs.find? (fun p => p.1 == a)).map (fun p => p.2)

/-- The attribute list scanned by the tree-builder variant
("[STABLE]WBSLSCv4.py", line 32). -/
def url_attrs_tree : List String :=
  ["href", "src", "action", "data-href", "data-src", "data-url",
   "data-link", "oneclick"]

/-- The attribute list scanned by the broken-link variant
("[STABLE]brokenScraperV2.96.5.py", line 33). -/
def url_attrs_scan : List String :=
  ["href", "src", "action", "data-href", "data-src"]

/-- Concatenation of a list of lists. -/
def concatAll : List (List String) → List String
  | [] => []
  | l :: ls => l ++ concatAll ls

/-- The raw candidate strings produced by the attribute scan: for
every element in document order, for each attribute of the fixed list
in order, its value when present and non-empty. -/
def attrCandidates (attrList : List String) (dom : List Element) : List String :=
  concatAll (dom.map (fun t => attrList.filterMap (fun a =>
    match lookupAttr t a with
    | some v => if v = "" then none else some v
    | none => none)))

/-- BeautifulSoup's `find_all("meta", attrs={"http-equiv": lambda x: x
and x.lower() == "refresh"})` membership test. -/
def isRefreshMeta (t : Element) : Bool :=
  t.tag == "meta" &&
    (match lookupAttr t "http-equiv" with
     | some v => (v != "") && (strToLower v == "refresh")
     | none => false)

/-- The meta-refresh candidates: for each refresh meta element, the
`url=` group of its `content` attribute, stripped of whitespace and
surrounding quotes ("[STABLE]WBSLSCv4.py", lines 45-49). -/
def metaCandidates (dom : List Element) : List String :=
  (dom.filter isRefreshMeta).filterMap (fun m =>
    (searchUrlEq (match lookupAttr m "content" with | some c => c | none => "")).map
      (fun g => stripQuotes (pyStrip g)))

/-- The inline-CSS candidates: `url(...)` groups of the raw text,
stripped of whitespace and quotes ("[STABLE]WBSLSCv4.py", lines 57-59). -/
def cssCandidates (html_content : String) : List String :=
  (cssFindAll html_content).map (fun s => stripQuotes (pyStrip s))

/-- Adding one URL to the Python-set-as-list model: sets never hold
duplicates, so insertion of a member is a no-op. -/
def addLink (ls : List String) (u : String) : List String :=
  if u ∈ ls then ls else ls ++ [u]

/-- One extraction stage: resolve every candidate and add it to the
accumulating set when the acceptance test passes.  Each loop in both
`get_all_links` variants is an instance of this. -/
def addAll (resolve : String → String) (accept : String → Bool)
    (ls : List String) (cands : List String) : List String :=
  cands.foldl (fun acc cand =>
    let full := resolve cand
    if accept full then addLink acc full else acc) ls

/-- The acceptance test of the tree-builder variant: a `file://` URL,
or a valid URL on the same domain as the base
("[STABLE]WBSLSCv4.py", lines 39-41 and the three analogous spots). -/
def accept_tree (base_url : String) (full_url : String) : Bool :=
  strStartsWith full_url "file://" ||
    (is_valid full_url && (urlNetloc full_url == urlNetloc base_url))

/-- The acceptance test of the broken-link variant's attribute stage:
a `file://` URL or any valid URL ("[STABLE]brokenScraperV2.96.5.py",
line 43). -/
def accept_scan_attr (full_url : String) : Bool :=
  strStartsWith full_url "file://" || is_valid full_url

/-- The acceptance test of the broken-link variant's raw-regex stage:
any valid URL ("[STABLE]brokenScraperV2.96.5.py", line 49). -/
def accept_scan_regex (full_url : String) : Bool :=
  is_valid full_url

/-- `get_all_links` of "[STABLE]WBSLSCv4.py" (lines 20-74): four
stages in order — attribute scan, meta refresh, inline CSS, raw-text
regex — all resolving with `urljoin` against the base and filtering
with the same-domain-or-file acceptance test. -/
def get_all_links_tree (dom : List Element) (html_content base_url : String) :
    List String :=
  let s1 := addAll (fun c => pyUrljoin base_url c) (accept_tree base_url) []
    (attrCandidates url_attrs_tree dom)
  let s2 := addAll (fun c => pyUrljoin base_url c) (accept_tree base_url) s1
    (metaCandidates dom)
  let s3 := addAll (fun c => pyUrljoin base_url c) (accept_tree base_url) s2
    (cssCandidates html_content)
  addAll (fun c => pyUrljoin base_url c) (accept_tree base_url) s3
    (httpFindAll html_content)

/-- `get_all_links` of "[STABLE]brokenScraperV2.96.5.py" (lines
24-51): two stages — attribute scan and raw-text regex — each
unescaping the candidate with `html.unescape` before `urljoin`. -/
def get_all_links_scan (dom : List Element) (html_content base_url : String) :
    List String :=
  let s1 := addAll (fun c => pyUrljoin base_url (html_unescape c)) accept_scan_attr []
    (attrCandidates url_attrs_scan dom)
  addAll (fun c => pyUrljoin base_url (html_unescape c)) accept_scan_regex s1
    (httpFindAll html_content)

/-! Per-strategy output sets, used to state the union property. -/

/-- Stage 1 of the tree-builder extractor alone. -/
def tree_strategy_attr (dom : List Element) (base_url : String) : List String :=
  addAll (fun c => pyUrljoin base_url c) (accept_tree base_url) []
    (attrCandidates url_attrs_tree dom)

/-- Stage 2 (meta refresh) of the tree-builder extractor alone. -/
def tree_strategy_meta (dom : List Element) (base_url : String) : List String :=
  addAll (fun c => pyUrljoin base_url c) (accept_tree base_url) []
    (metaCandidates dom)

/-- Stage 3 (inline CSS) of the tree-builder extractor alone. -/
def tree_strategy_css (html_content base_url : String) : List String :=
  addAll (fun c => pyUrljoin base_url c) (accept_tree base_url) []
    (cssCandidates html_content)

/-- Stage 4 (raw-text regex) of the tree-builder extractor alone. -/
def tree_strategy_regex (html_content base_url : String) : List String :=
  addAll (fun c => pyUrljoin base_url c) (accept_tree base_url) []
    (httpFindAll html_content)

/-- The attribute stage of the broken-link extractor alone. -/
def scan_strategy_attr (dom : List Element) (base_url : String) : List String :=
  addAll (fun c => pyUrljoin base_url (html_unescape c)) accept_scan_attr []
    (attrCandidates url_attrs_scan dom)

/-- The raw-text regex stage of the broken-link extractor alone. -/
def scan_strategy_regex (html_content base_url : String) : List String :=
  addAll (fun c => pyUrljoin base_url (html_unescape c)) accept_scan_regex []
    (httpFindAll html_content)

/-! ## Page data, tree nodes, and `scrape_page` -/

/-- The page dictionary returned by `scrape_page`, restricted to the
fields the traversal and the scanner use (`url`, `title`, `links`);
the `links` list stands for the Python set, in iteration order. -/
structure PageData where
  url : String
  title : String
  links : List String
deriving DecidableEq

/-- A node of the link tree built by `build_tree`. -/
inductive TreeNode where
  | node (url : String) (title : String) (links : List String)
      (children : List TreeNode)

mutual

/-- All node URLs of a tree, in preorder. -/
def treeUrls : TreeNode → List String
  | .node u _ _ cs => u :: forestUrls cs

/-- All node URLs of a list of trees. -/
def forestUrls : List TreeNode → List String
  | [] => []
  | c :: cs => treeUrls c ++ forestUrls cs

end

/-- Node URLs of an optional tree. -/
def optTreeUrls : Option TreeNode → List String
  | some t => treeUrls t
  | none => []

/-- Insertion into a lexicographically sorted list of strings. -/
def insertSorted (x : String) : List String → List String
  | [] => [x]
  | y :: ys => if strLe x y then x :: y :: ys else y :: insertSorted x ys

/-- Python `sorted` on a collection of strings (insertion sort; for
strings, any correct sort produces the same list). -/
def sortStrings (l : List String) : List String :=
  l.foldr insertSorted []

/-- `soup.title.string.strip() if soup.title and soup.title.string
else ""`: the first `title` element's text, trimmed. -/
def titleOf (dom : List Element) : String :=
  match dom.find? (fun t => t.tag == "title") with
  | some t =>
    match t.textContent with
    | some s => pyStrip s
    | none => ""
  | none => ""

/-- `scrape_page(url)` from both sources, over explicit capabilities:
`readFile` is the local-file read (`none` for a missing file, or any
read error caught by the surrounding `try`), `httpGet` the network GET
(`Except.error` for a transport exception, otherwise status code and
body), `parse` the HTML parser, and `extract` the variant's
`get_all_links`.  A missing file, a non-200 status, or a transport
exception yields `none` (no page data). -/
def scrape_page (readFile : String → Option String)
    (httpGet : String → Except String (Nat × String))
    (parse : String → List Element)
    (extract : List Element → String → String → List String)
    (url : String) : Option PageData :=
  if strStartsWith url "file://" then
    match readFile url with
    | none => none
    | some content =>
      some ⟨url, titleOf (parse content), extract (parse content) content url⟩
  else
    match httpGet url with
    | Except.error _ => none
    | Except.ok (status, body) =>
      if status ≠ 200 then none
      else some ⟨url, titleOf (parse body), extract (parse body) body url⟩

/-! ## `build_tree` ("[STABLE]WBSLSCv4.py", lines 115-148)

The shared mutable visited set becomes an explicit list threaded
through the calls (inserted-before-fetch order preserved), and the
`scrape_page` calls the traversal performs are returned as a trace
(third component), so that at-most-once fetching is expressible.
`fetch` is the `scrape_page` oracle. -/

mutual

/-- One `build_tree(url, base_domain, max_depth, visited)` call:
returns the optional node, the visited set after the call, and the
list of URLs passed to `scrape_page` during the call. -/
def build_tree (fetch : String → Option PageData) (base_domain url : String)
    (max_depth : Int) (visited : List String) :
    Option TreeNode × List String × List String :=
  if url ∈ visited then (none, visited, [])
  else
    match fetch url with
    | none => (none, url :: visited, [url])
    | some pd =>
      if _h : 0 < max_depth then
        match build_children fetch base_domain url pd.links (max_depth - 1)
            (url :: visited) with
        | (children, v2, t2) =>
          (some (.node pd.url pd.title (sortStrings pd.links) children), v2,
            url :: t2)
      else
        (some (.node pd.url pd.title (sortStrings pd.links) []),
          url :: visited, [url])
termination_by (max_depth.toNat, 0)
decreasing_by
  apply Prod.Lex.left
  omega

/-- The `for link in page_data["links"]` loop inside `build_tree`:
links are filtered by the asymmetric scope rule (a `file://` parent
follows only `file://` links; any other parent follows links whose
netloc equals `base_domain`), each accepted link is recursed into with
the threaded visited set, and non-`None` children are appended. -/
def build_children (fetch : String → Option PageData) (base_domain url : String)
    (links : List String) (d : Int) (visited : List String) :
    List TreeNode × List String × List String :=
  match links with
  | [] => ([], visited, [])
  | link :: rest =>
    if (if strStartsWith url "file://" then strStartsWith link "file://"
        else urlNetloc link == base_domain) then
      match build_tree fetch base_domain link d visited with
      | (copt, v1, t1) =>
        match build_children fetch base_domain url rest d v1 with
        | (cs, v2, t2) =>
          ((match copt with | some c => c :: cs | none => cs), v2, t1 ++ t2)
    else
      build_children fetch base_domain url rest d visited
termination_by (d.toNat, links.length + 1)
decreasing_by
  all_goals apply Prod.Lex.right
  all_goals try simp only [List.length_cons]
  all_goals omega

end

/-! ## The link checker and the scanner
("[STABLE]brokenScraperV2.96.5.py") -/

/-- The configured error-status set (line 15): `ERROR_CODES = {404}`. -/
def ERROR_CODES : List Nat := [404]

/-- `check_link(url)` (lines 88-100) over the explicit outcome of its
HEAD request: a completed request gives the final status code plus
a "Status code" message exactly when the code is in `ERROR_CODES`,
and a transport exception gives no status plus the exception text. -/
def check_link (response : Except String Nat) : Option Nat × String :=
  match response with
  | Except.ok code =>
    if code ∈ ERROR_CODES then (some code, "Status " ++ toString code)
    else (some code, "")
  | Except.error e => (none, e)

/-- One broken-link record (lines 124-129 and 142-147). -/
structure BrokenLinkRecord where
  parent_url : String
  broken_link : String
  status : Nat
  error : String
deriving DecidableEq

/-- `process_input_url(url)` (lines 102-148): scrape the page; on
failure return no records.  Otherwise HEAD-check the page itself
(recording it when the status is non-null and in `ERROR_CODES`, with
the error message defaulting to "Broken main page" when empty), then
HEAD-check every discovered link, keeping exactly those with a
non-null status in `ERROR_CODES`.  `headOutcome` is the transport
oracle behind `check_link`; the second component returns the URLs that
were HEAD-checked, in submission order (the thread pool's completion
order does not change which records exist). -/
def process_input_url (fetch : String → Option PageData)
    (headOutcome : String → Except String Nat) (url : String) :
    List BrokenLinkRecord × List String :=
  match fetch url with
  | none => ([], [])
  | some pd =>
    let mc := check_link (headOutcome url)
    let mainRecs : List BrokenLinkRecord :=
      match mc.1 with
      | some s =>
        if s ∈ ERROR_CODES then
          [⟨url, url, s, if mc.2 = "" then "Broken main page" else mc.2⟩]
        else []
      | none => []
    let linkRecs : List BrokenLinkRecord := pd.links.filterMap (fun l =>
      match check_link (headOutcome l) with
      | (some s, er) => if s ∈ ERROR_CODES then some ⟨url, l, s, er⟩ else none
      | (none, _) => none)
    (mainRecs ++ linkRecs, url :: pd.links)

/-! ## The interactive depth parsing ("[STABLE]WBSLSCv4.py", lines 171-175) -/

/-- Python `int(s)` restricted to optionally signed decimal numerals
with surrounding whitespace (underscore separators are not modelled);
`none` models `ValueError`. -/
def pyInt (s : String) : Option Int :=
  let cs := (pyStrip s).data
  let signAndDigits : Int × List Char :=
    match cs with
    | '-' :: r => (-1, r)
    | '+' :: r => (1, r)
    | r => (1, r)
  match signAndDigits with
  | (sign, ds) =>
    if ds.isEmpty then none
    else if ds.all Char.isDigit then some (sign * Int.ofNat (decToNat ds))
    else none

/-- `max_depth = int(s) if s else 1`, with `ValueError` falling back
to 1; `s` is the already-stripped interactive input. -/
def parse_max_depth (s : String) : Int :=
  if s = "" then 1
  else match pyInt s with
    | some n => n
    | none => 1

/-! ## Lemmas about the set-accumulation loops -/

/-- Membership after one set insertion. -/
theorem mem_addLink {ls : List String} {u x : String} :
    x ∈ addLink ls u ↔ x ∈ ls ∨ x = u := by
  unfold addLink
  split_ifs with h
  · constructor
    · exact Or.inl
    · rintro (hx | rfl)
      · exact hx
      · exact h
  · simp

/-- Set insertion preserves distinctness. -/
theorem nodup_addLink {ls : List String} {u : String} (h : ls.Nodup) :
    (addLink ls u).Nodup := by
  unfold addLink
  split_ifs with hm
  · exact h
  · simp [List.nodup_append, h, hm]

/-- Unfolding one step of an extraction stage. -/
theorem addAll_cons (resolve : String → String) (accept : String → Bool)
    (ls : List String) (c : String) (cs : List String) :
    addAll resolve accept ls (c :: cs) =
      addAll resolve accept
        (if accept (resolve c) then addLink ls (resolve c) else ls) cs := rfl

/-- Membership in an extraction stage's output: either it was already
accumulated, or some candidate resolves to it and passes the test. -/
theorem mem_addAll {resolve : String → String} {accept : String → Bool}
    {ls cands : List String} {x : String} :
    x ∈ addAll resolve accept ls cands ↔
      x ∈ ls ∨ ∃ c ∈ cands, accept (resolve c) = true ∧ x = resolve c := by
  induction cands generalizing ls with
  | nil => simp [addAll]
  | cons c cs ih =>
    rw [addAll_cons, ih]
    split_ifs with hc
    · rw [mem_addLink]
      constructor
      · rintro ((hx | rfl) | hex)
        · exact Or.inl hx
        · exact Or.inr ⟨c, by simp, hc, rfl⟩
        · obtain ⟨d, hd, had, hxd⟩ := hex
          exact Or.inr ⟨d, by simp [hd], had, hxd⟩
      · rintro (hx | hex)
        · exact Or.inl (Or.inl hx)
        · obtain ⟨d, hd, had, hxd⟩ := hex
          rcases List.mem_cons.mp hd with rfl | hd2
          · exact Or.inl (Or.inr hxd)
          · exact Or.inr ⟨d, hd2, had, hxd⟩
    · constructor
      · rintro (hx | hex)
        · exact Or.inl hx
        · obtain ⟨d, hd, had, hxd⟩ := hex
          exact Or.inr ⟨d, by simp [hd], had, hxd⟩
      · rintro (hx | hex)
        · exact Or.inl hx
        · obtain ⟨d, hd, had, hxd⟩ := hex
          rcases List.mem_cons.mp hd with rfl | hd2
          · exact absurd had (by simp [hc])
          · exact Or.inr ⟨d, hd2, had, hxd⟩

/-- An extraction stage preserves distinctness of the accumulator. -/
theorem nodup_addAll {resolve : String → String} {accept : String → Bool}
    {ls cands : List String} (h : ls.Nodup) :
    (addAll resolve accept ls cands).Nodup := by
  induction cands generalizing ls with
  | nil => exact h
  | cons c cs ih =>
    rw [addAll_cons]
    exact ih (by split_ifs with hc; exacts [nodup_addLink h, h])

/-! ## Claim C1 (URL classifier) -/

/-- A nonempty literal-prefixed string is nonempty. -/
theorem status_msg_ne_empty (code : Nat) : ("Status " ++ toString code) ≠ "" := by
  intro h
  have hlen : ("Status " ++ toString code).length = ("" : String).length := by rw [h]
  rw [String.length_append] at hlen
  have h7 : ("Status " : String).length = 7 := rfl
  have h0 : ("" : String).length = 0 := rfl
  omega

/-- C1, counterexample: `is_valid` grants no exemption to the
local-file scheme — a `file://` URL with an empty host parses to
scheme "file" and empty netloc, and `is_valid` classifies it invalid,
while the claim says it is valid. -/
theorem claim1_counterexample :
    is_valid "file:///home/user/index.html" = false ∧
      (pyUrlparse "file:///home/user/index.html" "").scheme = "file" ∧
      (pyUrlparse "file:///home/user/index.html" "").netloc = "" :=
  ⟨rfl, rfl, rfl⟩

/-- C1, amended: for every URL string `u`, `is_valid u` is true iff
both the parsed scheme and the parsed network location are non-empty —
with no exemption for the local-file scheme (a `file://` URL with an
empty host is classified invalid; the sources admit `file://` URLs
elsewhere through a literal prefix check, not through `is_valid`). -/
theorem claim1_amended :
    ∀ u : String, is_valid u = true ↔
      ((pyUrlparse u "").scheme ≠ "" ∧ (pyUrlparse u "").netloc ≠ "") := by
  intro u
  simp [is_valid]

/-! ## Claims C2 and C7 (link extractors) -/

/-- The parsed document used for the extractor counterexamples: the
single paragraph element of the raw text below (its text child is the
parser-unescaped text, and it carries no URL attribute). -/
def domC2 : List Element := [⟨"p", [], some "http://foo.com/a+b"⟩]

/-- The raw HTML used for the extractor counterexamples: an
entity-escaped URL in a text node. -/
def rawC2 : String := "<p>http://foo.com/a&#x2B;b</p>"

/-- C2, counterexample: on HTML whose raw text carries the
entity-escaped URL `http://foo.com/a&#x2B;b`, the tree-builder
extractor outputs the escaped form and never the unescaped form
`http://foo.com/a+b` — it applies no HTML-entity unescaping to its
candidates, contradicting the claim for that variant. -/
theorem claim2_counterexample :
    "http://foo.com/a+b" ∉ get_all_links_tree domC2 rawC2 "http://foo.com/" ∧
      "http://foo.com/a&#x2B;b" ∈ get_all_links_tree domC2 rawC2 "http://foo.com/" :=
  ⟨by decide, by decide⟩

/-- C2, amended: only the broken-link extractor unescapes HTML
entities — every URL in its output is the resolution against the base
of an `html.unescape`d raw candidate (from the attribute scan or the
raw-text regex scan); the tree-builder extractor resolves raw
candidates without unescaping, so an entity-escaped raw-text candidate
appears in its output in escaped form. -/
theorem claim2_amended :
    ∀ (dom : List Element) (html_content base_url u : String),
      u ∈ get_all_links_scan dom html_content base_url →
        (∃ c ∈ attrCandidates url_attrs_scan dom,
            u = pyUrljoin base_url (html_unescape c)) ∨
        (∃ m ∈ httpFindAll html_content,
            u = pyUrljoin base_url (html_unescape m)) := by
  intro dom raw base u hu
  simp only [get_all_links_scan] at hu
  rw [mem_addAll] at hu
  rcases hu with hu1 | ⟨m, hm, _, rfl⟩
  · rw [mem_addAll] at hu1
    rcases hu1 with hfalse | ⟨c, hc, _, rfl⟩
    · simp at hfalse
    · exact Or.inl ⟨c, hc, rfl⟩
  · exact Or.inr ⟨m, hm, rfl⟩

/-- C2, witness for the amended claim at the counterexample input:
the unescaped form is in the broken-link extractor's output, and it is
the resolution of an unescaped raw candidate. -/
theorem claim2_amended_witness :
    "http://foo.com/a+b" ∈ get_all_links_scan domC2 rawC2 "http://foo.com/" ∧
      ((∃ c ∈ attrCandidates url_attrs_scan domC2,
          "http://foo.com/a+b" = pyUrljoin "http://foo.com/" (html_unescape c)) ∨
       (∃ m ∈ httpFindAll rawC2,
          "http://foo.com/a+b" = pyUrljoin "http://foo.com/" (html_unescape m))) :=
  ⟨by decide, claim2_amended domC2 rawC2 "http://foo.com/" "http://foo.com/a+b" (by decide)⟩

/-- C7, counterexample: the broken-link extractor is not the union of
the four strategies — on HTML whose raw text is `url(abc.html)`, the
claimed inline-CSS strategy produces `http://foo.com/abc.html`, but
the broken-link extractor's output is empty (it runs only the
attribute scan and the raw-text regex). -/
theorem claim7_counterexample :
    "http://foo.com/abc.html" ∈ tree_strategy_css "url(abc.html)" "http://foo.com/" ∧
      get_all_links_scan [] "url(abc.html)" "http://foo.com/" = [] :=
  ⟨by decide, rfl⟩

/-- C7, amended: the tree-builder extractor's output is exactly the
union of its four strategies (attribute scan, meta-refresh scan,
inline-CSS scan, raw-text regex fallback), and the broken-link
extractor's output is exactly the union of its two strategies
(attribute scan and raw-text regex); both outputs are duplicate-free
(they model Python sets). -/
theorem claim7_amended :
    ∀ (dom : List Element) (html_content base_url u : String),
      (u ∈ get_all_links_tree dom html_content base_url ↔
        (u ∈ tree_strategy_attr dom base_url ∨
         u ∈ tree_strategy_meta dom base_url ∨
         u ∈ tree_strategy_css html_content base_url ∨
         u ∈ tree_strategy_regex html_content base_url)) ∧
      (get_all_links_tree dom html_content base_url).Nodup ∧
      (u ∈ get_all_links_scan dom html_content base_url ↔
        (u ∈ scan_strategy_attr dom base_url ∨
         u ∈ scan_strategy_regex html_content base_url)) ∧
      (get_all_links_scan dom html_content base_url).Nodup := by
  intro dom raw base u
  refine ⟨?_, ?_, ?_, ?_⟩
  · simp only [get_all_links_tree, tree_strategy_attr, tree_strategy_meta,
      tree_strategy_css, tree_strategy_regex, mem_addAll, List.not_mem_nil,
      false_or, or_assoc]
  · simp only [get_all_links_tree]
    exact nodup_addAll (nodup_addAll (nodup_addAll (nodup_addAll List.nodup_nil)))
  · simp only [get_all_links_scan, scan_strategy_attr, scan_strategy_regex,
      mem_addAll, List.not_mem_nil, false_or, or_assoc]
  · simp only [get_all_links_scan]
    exact nodup_addAll (nodup_addAll List.nodup_nil)

/-! ## Claim C8 (link checker contract) -/

/-- C8: `check_link` returns the final status code of a completed
HEAD request, paired with the message "Status code" exactly when that
code is in the configured error-status set and with the empty string
otherwise; on a transport exception it returns no status paired with
the exception's message. -/
theorem claim8_check_link :
    ∀ (msg : String) (code : Nat),
      check_link (Except.error msg) = (none, msg) ∧
      check_link (Except.ok code) =
        (some code,
          if code ∈ ERROR_CODES then "Status " ++ toString code else "") ∧
      (((check_link (Except.ok code)).2 ≠ "") ↔ code ∈ ERROR_CODES) := by
  intro msg code
  have hok : check_link (Except.ok code) =
      if code ∈ ERROR_CODES then ((some code : Option Nat), "Status " ++ toString code)
      else (some code, "") := rfl
  refine ⟨rfl, ?_, ?_⟩
  · rw [hok]
    split_ifs with h
    · rfl
    · rfl
  · rw [hok]
    split_ifs with h
    · simp [h, status_msg_ne_empty]
    · simp [h]

/-! ## Unfolding lemmas for `build_tree` -/

/-- A visited URL returns immediately: no node, no state change, no
fetch. -/
theorem build_tree_visited {fetch : String → Option PageData}
    {base url : String} {d : Int} {visited : List String}
    (h : url ∈ visited) :
    build_tree fetch base url d visited = (none, visited, []) := by
  rw [build_tree]
  simp [h]

/-- A fresh URL whose fetch fails is marked visited, fetched once, and
contributes no node. -/
theorem build_tree_fetch_none {fetch : String → Option PageData}
    {base url : String} {d : Int} {visited : List String}
    (h1 : url ∉ visited) (h2 : fetch url = none) :
    build_tree fetch base url d visited = (none, url :: visited, [url]) := by
  rw [build_tree]
  simp [h1, h2]

/-- A fresh URL fetched successfully at non-positive remaining depth
yields a leaf node with the page title and sorted link snapshot. -/
theorem build_tree_leaf {fetch : String → Option PageData}
    {base url : String} {d : Int} {visited : List String} {pd : PageData}
    (h1 : url ∉ visited) (h2 : fetch url = some pd) (h3 : ¬ 0 < d) :
    build_tree fetch base url d visited =
      (some (TreeNode.node pd.url pd.title (sortStrings pd.links) []),
        url :: visited, [url]) := by
  rw [build_tree]
  simp [h1, h2, h3]

/-- A fresh URL fetched successfully at positive remaining depth
recurses into its links through `build_children`. -/
theorem build_tree_step {fetch : String → Option PageData}
    {base url : String} {d : Int} {visited : List String} {pd : PageData}
    (h1 : url ∉ visited) (h2 : fetch url = some pd) (h3 : 0 < d) :
    build_tree fetch base url d visited =
      ((some (TreeNode.node pd.url pd.title (sortStrings pd.links)
          (build_children fetch base url pd.links (d - 1) (url :: visited)).1)),
        (build_children fetch base url pd.links (d - 1) (url :: visited)).2.1,
        url :: (build_children fetch base url pd.links (d - 1) (url :: visited)).2.2) := by
  rw [build_tree]
  rcases hbc : build_children fetch base url pd.links (d - 1) (url :: visited)
    with ⟨cs, v2, t2⟩
  simp [h1, h2, h3, hbc]

/-- The empty children loop. -/
theorem build_children_nil {fetch : String → Option PageData}
    {base url : String} {d : Int} {visited : List String} :
    build_children fetch base url [] d visited = ([], visited, []) := by
  rw [build_children]

/-- One accepted link: recurse into it, then continue with the
threaded visited set; a `some` child is prepended. -/
theorem build_children_cons_accept {fetch : String → Option PageData}
    {base url link : String} {rest : List String} {d : Int}
    {visited : List String}
    (hcond : (if strStartsWith url "file://" then strStartsWith link "file://"
        else urlNetloc link == base) = true) :
    build_children fetch base url (link :: rest) d visited =
      ((match (build_tree fetch base link d visited).1 with
        | some c => c :: (build_children fetch base url rest d
            (build_tree fetch base link d visited).2.1).1
        | none => (build_children fetch base url rest d
            (build_tree fetch base link d visited).2.1).1),
       (build_children fetch base url rest d
          (build_tree fetch base link d visited).2.1).2.1,
       (build_tree fetch base link d visited).2.2 ++
         (build_children fetch base url rest d
            (build_tree fetch base link d visited).2.1).2.2) := by
  rw [build_children]
  rcases hb : build_tree fetch base link d visited with ⟨copt, v1, t1⟩
  rcases hc : build_children fetch base url rest d v1 with ⟨cs, v2, t2⟩
  simp [hcond, hb, hc]

/-- One rejected link: the loop continues unchanged. -/
theorem build_children_cons_skip {fetch : String → Option PageData}
    {base url link : String} {rest : List String} {d : Int}
    {visited : List String}
    (hcond : ¬ ((if strStartsWith url "file://" then strStartsWith link "file://"
        else urlNetloc link == base) = true)) :
    build_children fetch base url (link :: rest) d visited =
      build_children fetch base url rest d visited := by
  rw [build_children]
  simp [hcond]

/-! ## The visited-set and fetch-trace invariant (claim C3) -/

/-- Invariant for the children loop, given the invariant for the
single-call traversal at the same remaining depth: the output visited
set is the fetch trace (reversed) on top of the input, and
distinctness is preserved. -/
theorem build_children_spec (fetch : String → Option PageData) (base : String)
    (d : Int)
    (hbt : ∀ url visited,
      (build_tree fetch base url d visited).2.1 =
        (build_tree fetch base url d visited).2.2.reverse ++ visited ∧
      (visited.Nodup → (build_tree fetch base url d visited).2.1.Nodup)) :
    ∀ (url : String) (links : List String) (visited : List String),
      (build_children fetch base url links d visited).2.1 =
        (build_children fetch base url links d visited).2.2.reverse ++ visited ∧
      (visited.Nodup → (build_children fetch base url links d visited).2.1.Nodup) := by
  intro url links
  induction links with
  | nil =>
    intro visited
    rw [build_children]
    simp
  | cons link rest ih =>
    intro visited
    by_cases hcond : (if strStartsWith url "file://" then strStartsWith link "file://"
        else urlNetloc link == base) = true
    · rw [build_children_cons_accept hcond]
      obtain ⟨hv1, hn1⟩ := hbt link visited
      constructor
      · rw [hv1, (ih _).1]
        simp [List.reverse_append, List.append_assoc]
      · intro hnd
        exact (ih _).2 (hn1 hnd)
    · rw [build_children_cons_skip hcond]
      exact ih visited

/-- Invariant for a single `build_tree` call, by induction on the
remaining depth: the output visited set is the fetch trace (reversed)
on top of the input, and distinctness is preserved. -/
theorem build_tree_spec :
    ∀ (n : Nat) (fetch : String → Option PageData) (base : String) (d : Int),
      d.toNat ≤ n →
      ∀ url visited,
        (build_tree fetch base url d visited).2.1 =
          (build_tree fetch base url d visited).2.2.reverse ++ visited ∧
        (visited.Nodup → (build_tree fetch base url d visited).2.1.Nodup) := by
  intro n
  induction n with
  | zero =>
    intro fetch base d hd url visited
    by_cases hv : url ∈ visited
    · rw [build_tree_visited hv]
      simp
    · cases hf : fetch url with
      | none =>
        rw [build_tree_fetch_none hv hf]
        simp [hv]
      | some pd =>
        have hd0 : ¬ 0 < d := by omega
        rw [build_tree_leaf hv hf hd0]
        simp [hv]
  | succ n ih =>
    intro fetch base d hd url visited
    by_cases hv : url ∈ visited
    · rw [build_tree_visited hv]
      simp
    · cases hf : fetch url with
      | none =>
        rw [build_tree_fetch_none hv hf]
        simp [hv]
      | some pd =>
        by_cases hd0 : 0 < d
        · have hbc := build_children_spec fetch base (d - 1)
            (fun url2 visited2 => ih fetch base (d - 1) (by omega) url2 visited2)
          obtain ⟨hv2, hn2⟩ := hbc url pd.links (url :: visited)
          rw [build_tree_step hv hf hd0]
          constructor
          · simp only [hv2, List.reverse_cons, List.append_assoc,
              List.singleton_append]
          · intro hnd
            exact hn2 (by simp [hv, hnd])
        · rw [build_tree_leaf hv hf hd0]
          simp [hv]

/-- C3: during one traversal with a shared visited set, each URL is
fetched at most once — a URL already in the visited set returns
immediately with no node, no state change and no fetch, and in every
case the traversal's fetch trace is duplicate-free, disjoint from the
initial visited set, and contained in the final visited set (URLs are
inserted before being fetched, which is what bounds cyclic link
graphs to a finite traversal — totality of `build_tree` itself). -/
theorem claim3_dedup (fetch : String → Option PageData) (base url : String)
    (d : Int) (visited : List String) (hnd : visited.Nodup) :
    (url ∈ visited → build_tree fetch base url d visited = (none, visited, [])) ∧
    (build_tree fetch base url d visited).2.2.Nodup ∧
    (∀ u ∈ (build_tree fetch base url d visited).2.2, u ∉ visited) ∧
    (∀ u ∈ (build_tree fetch base url d visited).2.2,
        u ∈ (build_tree fetch base url d visited).2.1) := by
  obtain ⟨hv, hn⟩ := build_tree_spec d.toNat fetch base d (le_refl _) url visited
  have hvn : (build_tree fetch base url d visited).2.1.Nodup := hn hnd
  rw [hv] at hvn
  rw [List.nodup_append] at hvn
  obtain ⟨hrev, _, hdisj⟩ := hvn
  refine ⟨fun h => build_tree_visited h, ?_, ?_, ?_⟩
  · exact List.nodup_reverse.mp hrev
  · intro u hu
    exact hdisj (List.mem_reverse.mpr hu)
  · intro u hu
    rw [hv]
    exact List.mem_append_left _ (List.mem_reverse.mpr hu)

/-- The cyclic two-page site used as the claim C3 witness. -/
def fetchCyc : String → Option PageData := fun u =>
  if u = "A" then some ⟨"A", "", ["B"]⟩
  else if u = "B" then some ⟨"B", "", ["A"]⟩
  else none

/-- C3 witness: on the cyclic link graph A→B→A, the traversal's fetch
trace is duplicate-free and every fetched URL lands in the final
visited set. -/
theorem claim3_dedup_witness :
    (build_tree fetchCyc "" "A" 5 []).2.2.Nodup ∧
    (∀ u ∈ (build_tree fetchCyc "" "A" 5 []).2.2, u ∉ ([] : List String)) ∧
    (∀ u ∈ (build_tree fetchCyc "" "A" 5 []).2.2,
        u ∈ (build_tree fetchCyc "" "A" 5 []).2.1) :=
  (claim3_dedup fetchCyc "" "A" 5 [] List.nodup_nil).2

/-! ## Claims C5 and C10 (depth bound) -/

/-- C5: for a fresh URL whose fetch succeeds, `build_tree` with max
depth 0 returns exactly one node with an empty children list —
regardless of how many links the page contains — still recording the
page's title and the sorted snapshot of its links (the URL is marked
visited and fetched exactly once). -/
theorem claim5_depth_zero (fetch : String → Option PageData)
    (base url : String) (visited : List String) (pd : PageData)
    (h1 : url ∉ visited) (h2 : fetch url = some pd) :
    build_tree fetch base url 0 visited =
      (some (TreeNode.node pd.url pd.title (sortStrings pd.links) []),
        url :: visited, [url]) :=
  build_tree_leaf h1 h2 (by omega)

/-- The three-link page used as the claim C5 witness. -/
def fetchW5 : String → Option PageData := fun u =>
  if u = "http://s.com/" then
    some ⟨"http://s.com/", "T", ["http://s.com/c", "http://s.com/a", "http://s.com/b"]⟩
  else none

/-- C5 witness: a depth-0 traversal of a page with three links yields
one childless node carrying the title and the sorted links. -/
theorem claim5_depth_zero_witness :
    build_tree fetchW5 "s.com" "http://s.com/" 0 [] =
      (some (TreeNode.node "http://s.com/" "T"
          ["http://s.com/a", "http://s.com/b", "http://s.com/c"] []),
        ["http://s.com/"], ["http://s.com/"]) := by
  have h := claim5_depth_zero fetchW5 "s.com" "http://s.com/" []
    ⟨"http://s.com/", "T", ["http://s.com/c", "http://s.com/a", "http://s.com/b"]⟩
    (by simp) rfl
  rw [h]
  rfl

/-- C10: `build_tree` never recurses for any non-positive max depth —
including the negative integers, which the interactive prompt parses
without falling back to the default (`parse_max_depth "-3" = -3`): a
fresh, successfully fetched URL yields a single childless node exactly
as with depth 0. -/
theorem claim10_nonpositive :
    parse_max_depth "-3" = -3 ∧
    ∀ (fetch : String → Option PageData) (base url : String) (d : Int)
      (visited : List String) (pd : PageData),
      d ≤ 0 → url ∉ visited → fetch url = some pd →
      build_tree fetch base url d visited =
        (some (TreeNode.node pd.url pd.title (sortStrings pd.links) []),
          url :: visited, [url]) := by
  refine ⟨rfl, ?_⟩
  intro fetch base url d visited pd hd h1 h2
  exact build_tree_leaf h1 h2 (by omega)

/-- C10 witness: depth -3 behaves exactly like depth 0 on the
three-link page. -/
theorem claim10_nonpositive_witness :
    build_tree fetchW5 "s.com" "http://s.com/" (-3) [] =
      (some (TreeNode.node "http://s.com/" "T"
          ["http://s.com/a", "http://s.com/b", "http://s.com/c"] []),
        ["http://s.com/"], ["http://s.com/"]) := by
  have h := claim10_nonpositive.2 fetchW5 "s.com" "http://s.com/" (-3) []
    ⟨"http://s.com/", "T", ["http://s.com/c", "http://s.com/a", "http://s.com/b"]⟩
    (by omega) (by simp) rfl
  rw [h]
  rfl

/-! ## The asymmetric scope rule (claim C4) -/

/-- Children of a `file://` parent: all nodes in the produced forest
are `file://` URLs, given that single calls at the same depth have
that property. -/
theorem build_children_file (fetch : String → Option PageData) (base : String)
    (d : Int)
    (hbt : ∀ url visited, strStartsWith url "file://" = true →
      ∀ x ∈ optTreeUrls (build_tree fetch base url d visited).1,
        strStartsWith x "file://" = true) :
    ∀ (url : String) (links visited : List String),
      strStartsWith url "file://" = true →
      ∀ x ∈ forestUrls (build_children fetch base url links d visited).1,
        strStartsWith x "file://" = true := by
  intro url links
  induction links with
  | nil =>
    intro visited _ x hx
    rw [build_children_nil] at hx
    simp [forestUrls] at hx
  | cons link rest ih =>
    intro visited hfile x hx
    by_cases hcond : (if strStartsWith url "file://" then strStartsWith link "file://"
        else urlNetloc link == base) = true
    · rw [build_children_cons_accept hcond] at hx
      have hlink : strStartsWith link "file://" = true := by
        rw [if_pos hfile] at hcond
        exact hcond
      rcases hb1 : (build_tree fetch base link d visited).1 with _ | c
      · rw [hb1] at hx
        simp only at hx
        exact ih _ hfile x hx
      · rw [hb1] at hx
        simp only [forestUrls] at hx
        rcases List.mem_append.mp hx with hxc | hxr
        · exact hbt link visited hlink x (by rw [hb1]; exact hxc)
        · exact ih _ hfile x hxr
    · rw [build_children_cons_skip hcond] at hx
      exact ih visited hfile x hx

/-- A traversal rooted (or currently positioned) at a `file://` URL
produces only `file://` nodes, provided the fetch oracle reports each
page under its own URL (as `scrape_page` does). -/
theorem build_tree_file :
    ∀ (n : Nat) (fetch : String → Option PageData) (base : String) (d : Int),
      d.toNat ≤ n →
      (∀ u pd, fetch u = some pd → pd.url = u) →
      ∀ url visited, strStartsWith url "file://" = true →
        ∀ x ∈ optTreeUrls (build_tree fetch base url d visited).1,
          strStartsWith x "file://" = true := by
  intro n
  induction n with
  | zero =>
    intro fetch base d hd hf url visited hfile x hx
    by_cases hv : url ∈ visited
    · rw [build_tree_visited hv] at hx
      simp [optTreeUrls] at hx
    · cases hfe : fetch url with
      | none =>
        rw [build_tree_fetch_none hv hfe] at hx
        simp [optTreeUrls] at hx
      | some pd =>
        rw [build_tree_leaf hv hfe (by omega)] at hx
        simp only [optTreeUrls, treeUrls, forestUrls, List.mem_cons] at hx
        rcases hx with rfl | hx
        · rw [hf url pd hfe]
          exact hfile
        · simp at hx
  | succ n ih =>
    intro fetch base d hd hf url visited hfile x hx
    by_cases hv : url ∈ visited
    · rw [build_tree_visited hv] at hx
      simp [optTreeUrls] at hx
    · cases hfe : fetch url with
      | none =>
        rw [build_tree_fetch_none hv hfe] at hx
        simp [optTreeUrls] at hx
      | some pd =>
        by_cases hd0 : 0 < d
        · rw [build_tree_step hv hfe hd0] at hx
          simp only [optTreeUrls, treeUrls, List.mem_cons] at hx
          rcases hx with rfl | hx
          · rw [hf url pd hfe]
            exact hfile
          · exact build_children_file fetch base (d - 1)
              (fun url2 visited2 => ih fetch base (d - 1) (by omega) hf url2 visited2)
              url pd.links (url :: visited) hfile x hx
        · rw [build_tree_leaf hv hfe hd0] at hx
          simp only [optTreeUrls, treeUrls, forestUrls, List.mem_cons] at hx
          rcases hx with rfl | hx
          · rw [hf url pd hfe]
            exact hfile
          · simp at hx

/-- Children loop scope invariant: every node in the produced forest
is a `file://` URL or has the traversal's base domain as its netloc,
given the single-call invariant at the same depth and the all-file
property for `file://` subtrees. -/
theorem build_children_scope (fetch : String → Option PageData) (base : String)
    (d : Int)
    (hfileAll : ∀ url visited, strStartsWith url "file://" = true →
      ∀ x ∈ optTreeUrls (build_tree fetch base url d visited).1,
        strStartsWith x "file://" = true)
    (hbt : ∀ url visited,
      ∀ x ∈ optTreeUrls (build_tree fetch base url d visited).1,
        x = url ∨ strStartsWith x "file://" = true ∨ urlNetloc x = base) :
    ∀ (url : String) (links visited : List String),
      ∀ x ∈ forestUrls (build_children fetch base url links d visited).1,
        strStartsWith x "file://" = true ∨ urlNetloc x = base := by
  intro url links
  induction links with
  | nil =>
    intro visited x hx
    rw [build_children_nil] at hx
    simp [forestUrls] at hx
  | cons link rest ih =>
    intro visited x hx
    by_cases hcond : (if strStartsWith url "file://" then strStartsWith link "file://"
        else urlNetloc link == base) = true
    · rw [build_children_cons_accept hcond] at hx
      have hlink : strStartsWith link "file://" = true ∨ urlNetloc link = base := by
        by_cases hfile : strStartsWith url "file://" = true
        · rw [if_pos hfile] at hcond
          exact Or.inl hcond
        · rw [if_neg hfile] at hcond
          exact Or.inr (by simpa using hcond)
      rcases hb1 : (build_tree fetch base link d visited).1 with _ | c
      · rw [hb1] at hx
        simp only at hx
        exact ih _ x hx
      · rw [hb1] at hx
        simp only [forestUrls] at hx
        rcases List.mem_append.mp hx with hxc | hxr
        · rcases hlink with hlf | hln
          · exact Or.inl (hfileAll link visited hlf x (by rw [hb1]; exact hxc))
          · rcases hbt link visited x (by rw [hb1]; exact hxc) with rfl | hxf | hxn
            · exact Or.inr hln
            · exact Or.inl hxf
            · exact Or.inr hxn
        · exact ih _ x hxr
    · rw [build_children_cons_skip hcond] at hx
      exact ih visited x hx

/-- Single-call scope invariant: every node in a tree built from
`url` is `url` itself, a `file://` URL, or has the base domain as its
netloc. -/
theorem build_tree_scope :
    ∀ (n : Nat) (fetch : String → Option PageData) (base : String) (d : Int),
      d.toNat ≤ n →
      (∀ u pd, fetch u = some pd → pd.url = u) →
      ∀ url visited,
        ∀ x ∈ optTreeUrls (build_tree fetch base url d visited).1,
          x = url ∨ strStartsWith x "file://" = true ∨ urlNetloc x = base := by
  intro n
  induction n with
  | zero =>
    intro fetch base d hd hf url visited x hx
    by_cases hv : url ∈ visited
    · rw [build_tree_visited hv] at hx
      simp [optTreeUrls] at hx
    · cases hfe : fetch url with
      | none =>
        rw [build_tree_fetch_none hv hfe] at hx
        simp [optTreeUrls] at hx
      | some pd =>
        rw [build_tree_leaf hv hfe (by omega)] at hx
        simp only [optTreeUrls, treeUrls, forestUrls, List.mem_cons] at hx
        rcases hx with rfl | hx
        · exact Or.inl (hf url pd hfe)
        · simp at hx
  | succ n ih =>
    intro fetch base d hd hf url visited x hx
    by_cases hv : url ∈ visited
    · rw [build_tree_visited hv] at hx
      simp [optTreeUrls] at hx
    · cases hfe : fetch url with
      | none =>
        rw [build_tree_fetch_none hv hfe] at hx
        simp [optTreeUrls] at hx
      | some pd =>
        by_cases hd0 : 0 < d
        · rw [build_tree_step hv hfe hd0] at hx
          simp only [optTreeUrls, treeUrls, List.mem_cons] at hx
          rcases hx with rfl | hx
          · exact Or.inl (hf url pd hfe)
          · refine Or.inr (build_children_scope fetch base (d - 1)
              (fun url2 visited2 => build_tree_file (d - 1).toNat fetch base (d - 1)
                (le_refl _) hf url2 visited2)
              (fun url2 visited2 => ih fetch base (d - 1) (by omega) hf url2 visited2)
              url pd.links (url :: visited) x hx)
        · rw [build_tree_leaf hv hfe hd0] at hx
          simp only [optTreeUrls, treeUrls, forestUrls, List.mem_cons] at hx
          rcases hx with rfl | hx
          · exact Or.inl (hf url pd hfe)
          · simp at hx

/-- The network-rooted site with a same-host `file://` page linking to
a foreign-host `file://` page, used as the claim C4 counterexample
(both intermediate link sets are ones the extractor can produce: it
accepts every `file://` candidate unconditionally). -/
def fetch4 : String → Option PageData := fun u =>
  if u = "http://example.com" then
    some ⟨"http://example.com", "", ["file://example.com/a"]⟩
  else if u = "file://example.com/a" then
    some ⟨"file://example.com/a", "", ["file://evil.com/b"]⟩
  else if u = "file://evil.com/b" then
    some ⟨"file://evil.com/b", "", []⟩
  else none

/-- C4, counterexample: a traversal rooted at the network URL
`http://example.com` (base domain equal to the root's host) reaches
the node `file://evil.com/b`, whose host is not the root's host — the
scope check uses the *current* node's URL, so a same-host `file://`
link switches the traversal into file mode, which then follows
`file://` links to any host. -/
theorem claim4_counterexample :
    strStartsWith "http://example.com" "file://" = false ∧
    urlNetloc "http://example.com" = "example.com" ∧
    "file://evil.com/b" ∈
      optTreeUrls (build_tree fetch4 "example.com" "http://example.com" 2 []).1 ∧
    urlNetloc "file://evil.com/b" ≠ "example.com" := by
  have hf0 : fetch4 "http://example.com" =
      some ⟨"http://example.com", "", ["file://example.com/a"]⟩ := rfl
  have hf1 : fetch4 "file://example.com/a" =
      some ⟨"file://example.com/a", "", ["file://evil.com/b"]⟩ := rfl
  have hf2 : fetch4 "file://evil.com/b" =
      some ⟨"file://evil.com/b", "", []⟩ := rfl
  have e2 : build_tree fetch4 "example.com" "file://evil.com/b" 0
      ["file://example.com/a", "http://example.com"] =
      (some (TreeNode.node "file://evil.com/b" "" [] []),
        ["file://evil.com/b", "file://example.com/a", "http://example.com"],
        ["file://evil.com/b"]) := by
    rw [build_tree_leaf (by decide) hf2 (by omega)]
    rfl
  have e1 : build_tree fetch4 "example.com" "file://example.com/a" 1
      ["http://example.com"] =
      (some (TreeNode.node "file://example.com/a" "" ["file://evil.com/b"]
          [TreeNode.node "file://evil.com/b" "" [] []]),
        ["file://evil.com/b", "file://example.com/a", "http://example.com"],
        ["file://example.com/a", "file://evil.com/b"]) := by
    rw [build_tree_step (by decide) hf1 (by omega)]
    simp only [show (1 : Int) - 1 = 0 by decide]
    rw [build_children_cons_accept (by decide), e2, build_children_nil]
    rfl
  have e0 : build_tree fetch4 "example.com" "http://example.com" 2 [] =
      (some (TreeNode.node "http://example.com" "" ["file://example.com/a"]
          [TreeNode.node "file://example.com/a" "" ["file://evil.com/b"]
            [TreeNode.node "file://evil.com/b" "" [] []]]),
        ["file://evil.com/b", "file://example.com/a", "http://example.com"],
        ["http://example.com", "file://example.com/a", "file://evil.com/b"]) := by
    rw [build_tree_step (by decide) hf0 (by omega)]
    simp only [show (2 : Int) - 1 = 1 by decide]
    rw [build_children_cons_accept (by decide), e1, build_children_nil]
    rfl
  refine ⟨rfl, rfl, ?_, by decide⟩
  rw [e0]
  decide

/-- C4, amended: the scope rule is asymmetric and applies to the
*current* node — a traversal rooted at a `file://` URL contains only
`file://` nodes; a traversal rooted at a network URL whose host
equals the base domain contains only nodes that either have that base
domain as their host or are `file://` URLs (a same-host `file://`
link may switch the traversal into file mode, whose descendants can
be `file://` URLs of any host).  The fetch oracle is assumed to
report each page under its own URL, as `scrape_page` does. -/
theorem claim4_amended (fetch : String → Option PageData) (base url : String)
    (d : Int) (visited : List String)
    (hf : ∀ u pd, fetch u = some pd → pd.url = u) :
    (strStartsWith url "file://" = true →
      ∀ x ∈ optTreeUrls (build_tree fetch base url d visited).1,
        strStartsWith x "file://" = true) ∧
    (strStartsWith url "file://" = false → base = urlNetloc url →
      ∀ x ∈ optTreeUrls (build_tree fetch base url d visited).1,
        strStartsWith x "file://" = true ∨ urlNetloc x = base) := by
  constructor
  · exact fun hfile =>
      build_tree_file d.toNat fetch base d (le_refl _) hf url visited hfile
  · intro _ hbase x hx
    rcases build_tree_scope d.toNat fetch base d (le_refl _) hf url visited x hx
      with rfl | hxf | hxn
    · exact Or.inr hbase.symm
    · exact Or.inl hxf
    · exact Or.inr hxn

/-- The constant fetch oracle used as the claim C4 witness: every
page exists, reports its own URL, and has no links. -/
def fetchProbe : String → Option PageData := fun u => some ⟨u, "", []⟩

/-- C4 witness: the file half of the amended claim applied at a
concrete file-rooted traversal and its root node. -/
theorem claim4_amended_witness :
    strStartsWith "file://x/" "file://" = true := by
  have hfp : fetchProbe "file://x/" = some ⟨"file://x/", "", []⟩ := rfl
  have e : build_tree fetchProbe "b" "file://x/" 1 [] =
      (some (TreeNode.node "file://x/" "" [] []), ["file://x/"], ["file://x/"]) := by
    rw [build_tree_step (by decide) hfp (by omega), build_children_nil]
    rfl
  exact (claim4_amended fetchProbe "b" "file://x/" 1 []
    (fun u pd h => by injection h with h2; rw [← h2])).1 rfl "file://x/"
    (by rw [e]; decide)

/-! ## Claims C6 and C9 (broken-link scanner) -/

/-- C6: a checked URL is recorded as broken exactly when its HEAD
check returns a non-null status in `ERROR_CODES`: for a page whose
own HEAD check returns 404 and whose three links check as 200, 404
and a connection error (null status), `process_input_url` yields
exactly two records — the page itself and the 404 link — and the
connection-error link yields none. -/
theorem claim6_scanner (fetch : String → Option PageData)
    (headOutcome : String → Except String Nat) (url l1 l2 l3 : String)
    (pd : PageData) (m : String)
    (hfe : fetch url = some pd) (hlinks : pd.links = [l1, l2, l3])
    (h0 : headOutcome url = Except.ok 404)
    (h1 : headOutcome l1 = Except.ok 200)
    (h2 : headOutcome l2 = Except.ok 404)
    (h3 : headOutcome l3 = Except.error m) :
    process_input_url fetch headOutcome url =
      ([⟨url, url, 404, "Status 404"⟩, ⟨url, l2, 404, "Status 404"⟩],
        url :: [l1, l2, l3]) := by
  have c404 : check_link (Except.ok 404) = (some 404, "Status 404") := rfl
  have c200 : check_link (Except.ok 200) = (some 200, "") := rfl
  have cerr : check_link (Except.error m) = (none, m) := rfl
  unfold process_input_url
  rw [hfe]
  simp only [hlinks, h0, c404, List.filterMap_cons, List.filterMap_nil,
    h1, h2, h3, c200, cerr]
  simp [ERROR_CODES]

/-- The fixture page for the claim C6 witness. -/
def fetchW6 : String → Option PageData := fun u =>
  if u = "http://w.com/" then
    some ⟨"http://w.com/", "",
      ["http://w.com/ok", "http://w.com/gone", "http://w.com/err"]⟩
  else none

/-- The fixture HEAD transport for the claim C6 witness. -/
def headW6 : String → Except String Nat := fun u =>
  if u = "http://w.com/" then Except.ok 404
  else if u = "http://w.com/ok" then Except.ok 200
  else if u = "http://w.com/gone" then Except.ok 404
  else Except.error "connection refused"

/-- C6 witness: the fixture scan yields exactly the two 404 records. -/
theorem claim6_scanner_witness :
    process_input_url fetchW6 headW6 "http://w.com/" =
      ([⟨"http://w.com/", "http://w.com/", 404, "Status 404"⟩,
        ⟨"http://w.com/", "http://w.com/gone", 404, "Status 404"⟩],
       ["http://w.com/", "http://w.com/ok", "http://w.com/gone", "http://w.com/err"]) :=
  claim6_scanner fetchW6 headW6 "http://w.com/" "http://w.com/ok"
    "http://w.com/gone" "http://w.com/err"
    ⟨"http://w.com/", "",
      ["http://w.com/ok", "http://w.com/gone", "http://w.com/err"]⟩
    "connection refused" rfl rfl rfl rfl rfl rfl

/-- C9: when scraping the seed fails — missing local file, transport
exception, or a non-200 GET status — `process_input_url` returns an
empty record list with an empty HEAD-check trace: the seed itself is
never HEAD-checked, so a seed whose GET returns 404 produces no
"broken main page" record. -/
theorem claim9_skip (readFile : String → Option String)
    (httpGet : String → Except String (Nat × String))
    (parse : String → List Element)
    (extract : List Element → String → String → List String)
    (headOutcome : String → Except String Nat) (url : String)
    (h : (strStartsWith url "file://" = true ∧ readFile url = none) ∨
         (strStartsWith url "file://" = false ∧
           ((∃ e, httpGet url = Except.error e) ∨
            (∃ s b, httpGet url = Except.ok (s, b) ∧ s ≠ 200)))) :
    process_input_url (scrape_page readFile httpGet parse extract) headOutcome url
      = ([], []) := by
  have hnone : scrape_page readFile httpGet parse extract url = none := by
    unfold scrape_page
    rcases h with ⟨hfile, hrf⟩ | ⟨hnet, herr⟩
    · rw [if_pos hfile, hrf]
    · rw [if_neg (by simp [hnet])]
      rcases herr with ⟨e, he⟩ | ⟨s, b, hok, hs⟩
      · rw [he]
      · rw [hok]
        simp only [if_pos hs]
  unfold process_input_url
  rw [hnone]

/-- C9 witness: a seed whose GET returns 404 yields no records and no
HEAD checks. -/
theorem claim9_skip_witness :
    process_input_url
      (scrape_page (fun _ => none) (fun _ => Except.ok (404, ""))
        (fun _ => []) (fun _ _ _ => []))
      (fun _ => Except.ok 200) "http://dead.example/" = ([], []) :=
  claim9_skip (fun _ => none) (fun _ => Except.ok (404, "")) (fun _ => [])
    (fun _ _ _ => []) (fun _ => Except.ok 200) "http://dead.example/"
    (Or.inr ⟨rfl, Or.inr ⟨404, "", rfl, by omega⟩⟩)
